import Mathlib

/-!
Verification of the CosmWasm launchpad read/query client of this repository
(`src/libs/cosmwasm-launchpad/cosmwasmclient.ts` and
`src/libs/cosmwasm-launchpad/lcdapi/wasm.ts`).

The TypeScript code is shallowly embedded: plain record/union types become
structures and inductives, JS numbers occurring here are integers (heights,
codes) modelled by `Int`/`Nat`, optional JSON fields become `Option`, and
code that can `throw` returns `Except String`.  Network access is modelled by
passing the backend as an explicit function argument; each operation that can
reach the network additionally reports which query strings (or how many
requests) it issued, so that "no network call" claims are statable.
-/

namespace CosmWasmClient

/-- JS `x || d` on an optional number: `undefined`, `NaN` and `0` are falsy. -/
def jsOrInt (o : Option Int) (d : Int) : Int :=
  match o with
  | none => d
  | some x => if x = 0 then d else x

/-- JS `x || d` on an optional string: `undefined` and `""` are falsy. -/
def jsOrStr (o : Option String) (d : String) : String :=
  match o with
  | none => d
  | some s => if s = "" then d else s

/-- JS falsy test for an optional string (`!x`). -/
def jsStrFalsy (o : Option String) : Bool :=
  match o with
  | none => true
  | some s => s = ""

/-- JS `Number.MAX_SAFE_INTEGER` = 2^53 - 1. -/
def maxSafeInteger : Int := 9007199254740991

/-- Numeric value of a list of decimal digit characters. -/
def digitsVal (l : List Char) : Nat :=
  l.foldl (fun a c => a * 10 + (c.toNat - 48)) 0

/-- JS `parseInt(s, 10)`: an optional sign followed by a longest (possibly
improper) prefix of decimal digits; `none` models `NaN` (no digits). -/
def parseIntJS (s : String) : Option Int :=
  match s.toList with
  | '-' :: rest =>
    let ds := rest.takeWhile Char.isDigit
    if ds.isEmpty then none else some (-(digitsVal ds : Int))
  | l =>
    let ds := l.takeWhile Char.isDigit
    if ds.isEmpty then none else some (digitsVal ds : Int)

/-- JS `parseInt(s, 10) > k` where the left side may be `NaN`
(`NaN > k` is `false`). -/
def parseIntGt (s : String) (k : Int) : Bool :=
  match parseIntJS s with
  | none => false
  | some v => k < v

/-- Modelled from `@cosmjs/math` `Uint53.fromString(s).toNumber()`: the string
must consist solely of decimal digits and denote a value of at most 2^53 - 1;
otherwise the call throws (`none`). -/
def parseUint53 (s : String) : Option Nat :=
  if s.toList ≠ [] ∧ s.toList.all Char.isDigit then
    let n := digitsVal s.toList
    if n ≤ 9007199254740991 then some n else none
  else none

/-- Value of one hex digit character, case-insensitive
(as accepted by `@cosmjs/encoding` `fromHex`). -/
def hexDigitVal (c : Char) : Option Nat :=
  if '0' ≤ c ∧ c ≤ '9' then some (c.toNat - 48)
  else if 'a' ≤ c ∧ c ≤ 'f' then some (c.toNat - 87)
  else if 'A' ≤ c ∧ c ≤ 'F' then some (c.toNat - 55)
  else none

/-- Modelled from `@cosmjs/encoding` `fromHex` on the character list: pairs of
hex digits become bytes; odd length or an invalid character throws (`none`). -/
def fromHexList : List Char → Option (List Nat)
  | [] => some []
  | hi :: lo :: rest =>
    match hexDigitVal hi, hexDigitVal lo, fromHexList rest with
    | some h, some l, some bs => some ((h * 16 + l) :: bs)
    | _, _, _ => none
  | [_] => none

/-- Modelled from `@cosmjs/encoding` `fromHex`. -/
def fromHex (s : String) : Option (List Nat) :=
  fromHexList s.toList

/-- Lowercase hex digit character for a value below 16. -/
def hexChar (n : Nat) : Char :=
  if n < 10 then Char.ofNat (48 + n) else Char.ofNat (87 + n)

/-- Modelled from `@cosmjs/encoding` `toHex`: lowercase hex of a byte list. -/
def toHex (bs : List Nat) : String :=
  String.mk (bs.foldr (fun b acc => hexChar (b / 16 % 16) :: hexChar (b % 16) :: acc) [])

/-- Value of one base64 alphabet character. -/
def base64CharVal (c : Char) : Option Nat :=
  if 'A' ≤ c ∧ c ≤ 'Z' then some (c.toNat - 65)
  else if 'a' ≤ c ∧ c ≤ 'z' then some (c.toNat - 97 + 26)
  else if '0' ≤ c ∧ c ≤ '9' then some (c.toNat - 48 + 52)
  else if c = '+' then some 62
  else if c = '/' then some 63
  else none

/-- Modelled from `@cosmjs/encoding` `fromBase64` on the character list:
groups of four base64 characters decode to three bytes, with `=`-padding
allowed only in the final group; anything else throws (`none`). -/
def fromBase64List : List Char → Option (List Nat)
  | [] => some []
  | a :: b :: c :: d :: rest =>
    match base64CharVal a, base64CharVal b with
    | some va, some vb =>
      if c = '=' ∧ d = '=' ∧ rest = [] then
        some [va * 4 + vb / 16]
      else if d = '=' ∧ rest = [] then
        match base64CharVal c with
        | some vc => some [va * 4 + vb / 16, vb % 16 * 16 + vc / 4]
        | none => none
      else
        match base64CharVal c, base64CharVal d, fromBase64List rest with
        | some vc, some vd, some bs =>
          some ((va * 4 + vb / 16) :: (vb % 16 * 16 + vc / 4) :: (vc % 4 * 64 + vd) :: bs)
        | _, _, _ => none
    | _, _ => none
  | _ => none

/-- Modelled from `@cosmjs/encoding` `fromBase64`. -/
def fromBase64 (s : String) : Option (List Nat) :=
  fromBase64List s.toList

/-- An `IndexedTx` as produced by `txsQuery`'s result mapping.  The opaque
payload fields `logs` and `tx` of the source type are omitted: they are
carried through unchanged and inspected by none of the verified operations. -/
structure IndexedTx where
  height : Int
  hash : String
  code : Int
  rawLog : String
  timestamp : String
deriving DecidableEq, Repr

/-- One entry of the LCD transaction-search response (`TxsResponseItem`),
with its decimal `height` string already read as the integer that
`parseInt(restItem.height, 10)` yields. -/
structure RestTxItem where
  height : Int
  txhash : String
  code : Option Int
  raw_log : String
  timestamp : String
deriving DecidableEq, Repr

/-- The result mapping inside `txsQuery`:
`code: restItem.code || 0`, `hash: restItem.txhash`, etc. -/
def restToIndexed (r : RestTxItem) : IndexedTx :=
  { height := r.height
    hash := r.txhash
    code := jsOrInt r.code 0
    rawLog := r.raw_log
    timestamp := r.timestamp }

/-- An LCD `TxsResponse` page: `page_total` and `total_count` are the decimal
strings of the wire format; `txs` the matching transactions. -/
structure TxsPage where
  page_total : String
  total_count : String
  txs : List RestTxItem

/-- The private helper `txsQuery` of the client: appends `&limit=100`, issues
the request, throws when the backend reports more than one page, and
otherwise maps the RESTful items to `IndexedTx`.  The second component lists
the query strings sent over the network (here always exactly one). -/
def txsQuery (backend : String → TxsPage) (query : String) :
    Except String (List IndexedTx) × List String :=
  let fullQuery := query ++ "&limit=100"
  let result := backend fullQuery
  if parseIntGt result.page_total 1 then
    (Except.error ("Found more results on the backend than we can process currently. Results: "
        ++ result.total_count ++ ", supported: 100"),
      [fullQuery])
  else
    (Except.ok (result.txs.map restToIndexed), [fullQuery])

/-- Operation `getTx`: first result of a `tx.hash=<id>` search, or `null`. -/
def getTx (backend : String → TxsPage) (id : String) :
    Except String (Option IndexedTx) × List String :=
  let res := txsQuery backend ("tx.hash=" ++ id)
  match res.1 with
  | Except.ok results => (Except.ok results.head?, res.2)
  | Except.error e => (Except.error e, res.2)

/-- The three mutually exclusive `SearchTxQuery` shapes. -/
inductive SearchTxQuery where
  | byHeight (height : Int)
  | bySentFromOrTo (sentFromOrTo : String)
  | byTags (tags : List (String × String))

/-- A `SearchTxFilter`: optional inclusive height bounds. -/
structure SearchTxFilter where
  minHeight : Option Int := none
  maxHeight : Option Int := none

/-- The two-pointer merge loop of `searchTx`'s sent-from-or-to path, together
with the trailing `[...mergedTxs, ...sent, ...received]` that appends the
unconsumed remainder.  When the head hashes coincide the emitted element is
the received head (`sent.shift()! && received.shift()!` evaluates to the
latter) and both pointers advance; otherwise the head of lower height is
emitted (ties favouring `sent`). -/
def mergeSentReceived : List IndexedTx → List IndexedTx → List IndexedTx
  | [], received => received
  | s :: ss, [] => s :: ss
  | s :: ss, r :: rs =>
    if s.hash = r.hash then r :: mergeSentReceived ss rs
    else if s.height ≤ r.height then s :: mergeSentReceived ss (r :: rs)
    else r :: mergeSentReceived (s :: ss) rs
termination_by a b => a.length + b.length

/-- Helper `withFilters` of `searchTx`. -/
def withFilters (minHeight maxHeight : Int) (originalQuery : String) : String :=
  originalQuery ++ "&tx.minheight=" ++ toString minHeight
    ++ "&tx.maxheight=" ++ toString maxHeight

/-- The tag-query string: `query.tags.map(t => k=v).join('&')`. -/
def joinTags (tags : List (String × String)) : String :=
  String.intercalate "&" (tags.map (fun t => t.1 ++ "=" ++ t.2))

/-- The final authoritative height filter of `searchTx`. -/
def finalHeightFilter (minHeight maxHeight : Int) (txs : List IndexedTx) :
    List IndexedTx :=
  txs.filter (fun tx => decide (minHeight ≤ tx.height) && decide (tx.height ≤ maxHeight))

/-- The query-dispatch part of `searchTx` (everything between the
empty-range early return and the final height filter). -/
def searchTxFetch (backend : String → TxsPage) (query : SearchTxQuery)
    (minHeight maxHeight : Int) : Except String (List IndexedTx) × List String :=
  match query with
  | SearchTxQuery.byHeight h =>
    if h < minHeight ∨ maxHeight < h then (Except.ok [], [])
    else txsQuery backend ("tx.height=" ++ toString h)
  | SearchTxQuery.bySentFromOrTo addr =>
    let sentPair := txsQuery backend
      (withFilters minHeight maxHeight ("message.module=bank&message.sender=" ++ addr))
    let receivedPair := txsQuery backend
      (withFilters minHeight maxHeight ("message.module=bank&transfer.recipient=" ++ addr))
    let calls := sentPair.2 ++ receivedPair.2
    match sentPair.1, receivedPair.1 with
    | Except.ok sent, Except.ok received =>
      (Except.ok (mergeSentReceived sent received), calls)
    | Except.error e, _ => (Except.error e, calls)
    | Except.ok _, Except.error e => (Except.error e, calls)
  | SearchTxQuery.byTags tags =>
    txsQuery backend (withFilters minHeight maxHeight (joinTags tags))

/-- Operation `searchTx`: effective bounds via JS `||` (so a zero bound falls back to
its default), empty-range early return issuing no request, query dispatch,
and the final height filter re-applied to whatever the backend returned. -/
def searchTx (backend : String → TxsPage) (query : SearchTxQuery)
    (filter : SearchTxFilter) : Except String (List IndexedTx) × List String :=
  let minHeight := jsOrInt filter.minHeight 0
  let maxHeight := jsOrInt filter.maxHeight maxSafeInteger
  if maxHeight < minHeight then (Except.ok [], [])
  else
    let fetched := searchTxFetch backend query minHeight maxHeight
    match fetched.1 with
    | Except.ok txs => (Except.ok (finalHeightFilter minHeight maxHeight txs), fetched.2)
    | Except.error e => (Except.error e, fetched.2)

/-- The strict transaction-hash pattern `^([0-9A-F][0-9A-F])+$` of
`broadcastTx`: non-empty, even length, uppercase hex digits only. -/
def txhashMatches (s : String) : Bool :=
  s.length % 2 == 0 && s.length != 0 &&
    s.toList.all (fun c =>
      (decide ('0' ≤ c) && decide (c ≤ '9')) || (decide ('A' ≤ c) && decide (c ≤ 'F')))

/-- The LCD broadcast response (`BroadcastTxsResponse` of `@cosmjs/launchpad`):
`height` is a decimal string, `code` an optional number, `logs` an opaque
list (entries modelled as strings), `data` an optional hex string. -/
structure BroadcastResponse where
  height : String
  txhash : String
  code : Option Int
  raw_log : Option String
  logs : Option (List String)
  data : Option String
deriving DecidableEq, Repr

/-- The two observable result shapes of `broadcastTx`. -/
inductive BroadcastResult where
  | sync (height : Nat) (transactionHash : String) (code : Int) (rawLog : String)
  | indexed (logs : List String) (rawLog : String) (transactionHash : String)
      (data : Option (List Nat))
deriving DecidableEq, Repr

/-- The expression `result.data ? fromHex(result.data) : undefined` of the indexed branch:
a missing or empty (falsy) `data` field yields no data, otherwise the field
is hex-decoded and an invalid hex string throws. -/
def broadcastData (d : Option String) : Except String (Option (List Nat)) :=
  match d with
  | none => Except.ok none
  | some s =>
    if s = "" then Except.ok none
    else
      match fromHex s with
      | some bs => Except.ok (some bs)
      | none => Except.error "hex string contains invalid characters"

/-- Operation `broadcastTx` applied to the backend's response: reject an ill-formatted
hash, then bifurcate on whether `code` is populated — the synchronous shape
(with `Uint53`-parsed height) when it is, the indexed shape otherwise. -/
def broadcastTx (result : BroadcastResponse) : Except String BroadcastResult :=
  if ¬ txhashMatches result.txhash then
    Except.error "Received ill-formatted txhash. Must be non-empty upper-case hex"
  else
    match result.code with
    | some c =>
      match parseUint53 result.height with
      | some h => Except.ok (BroadcastResult.sync h result.txhash c (jsOrStr result.raw_log ""))
      | none => Except.error "Invalid string format"
    | none =>
      match broadcastData result.data with
      | Except.ok dd =>
        Except.ok (BroadcastResult.indexed (result.logs.getD [])
          (jsOrStr result.raw_log "") result.txhash dd)
      | Except.error e => Except.error e

/-- A coin of the account balance. -/
structure Coin where
  denom : String
  amount : String
deriving DecidableEq, Repr

/-- A public key record (already structured; `normalizePubkey` of
`@cosmjs/launchpad` is modelled as the identity on this form). -/
structure PubKey where
  type : String
  value : String
deriving DecidableEq, Repr

/-- The `account.result.value` of the `/auth/accounts/` response, with the
`uint64`-string fields already read as numbers. -/
structure AccountValue where
  address : String
  coins : List Coin
  public_key : Option PubKey
  account_number : Nat
  sequence : Nat
deriving DecidableEq, Repr

/-- The client's `Account` record. -/
structure Account where
  address : String
  balance : List Coin
  pubkey : Option PubKey
  accountNumber : Nat
  sequence : Nat
deriving DecidableEq, Repr

/-- The result of `getSequence`. -/
structure GetSequenceResult where
  accountNumber : Nat
  sequence : Nat
deriving DecidableEq, Repr

/-- Operation `getAccount` applied to the backend's `result.value`: an empty address
field yields the absent sentinel, otherwise the reshaped account.  (The
`anyValidAddress` hint update, which only affects `getHeight`, is omitted.) -/
def getAccount (value : AccountValue) : Option Account :=
  if value.address = "" then none
  else
    some
      { address := value.address
        balance := value.coins
        pubkey := value.public_key
        accountNumber := value.account_number
        sequence := value.sequence }

/-- Operation `getSequence`: thin wrapper over `getAccount`, throwing when the account
is absent. -/
def getSequence (value : AccountValue) : Except String GetSequenceResult :=
  match getAccount value with
  | none =>
    Except.error
      "Account does not exist on chain. Send some tokens there before trying to query sequence."
  | some account =>
    Except.ok { accountNumber := account.accountNumber, sequence := account.sequence }

/-- One `getChainId` call: `network` is the (fixed) backend's
`node_info.network` field, `cached` the instance's `chainId` field.  Returns
the result, the new cached field, and the number of network requests made. -/
def getChainId (network : Option String) (cached : Option String) :
    Except String String × Option String × Nat :=
  if jsStrFalsy cached then
    if jsStrFalsy network then (Except.error "Chain ID must not be empty", cached, 1)
    else (Except.ok (network.getD ""), network, 1)
  else (Except.ok (cached.getD ""), cached, 0)

/-- Run of `n` successive `getChainId` calls on one instance against a fixed
backend: the list of results, the final cached field, and the total number of
network requests. -/
def runGetChainIdCalls (network : Option String) :
    Nat → Option String → List (Except String String) × Option String × Nat
  | 0, cached => ([], cached, 0)
  | n + 1, cached =>
    let step := getChainId network cached
    let rest := runGetChainIdCalls network n step.2.1
    (step.1 :: rest.1, rest.2.1, step.2.2 + rest.2.2)

/-- The `wasm.getCode` LCD result (`CodeDetails` of `lcdapi/wasm.ts`):
`data_hash` is hex, `data` base64. -/
structure CodeInfoResponse where
  id : Nat
  creator : String
  data_hash : String
  source : Option String
  builder : Option String
  data : String
deriving DecidableEq, Repr

/-- The client's `CodeDetails` record (decoded bytecode). -/
structure CodeDetails where
  id : Nat
  creator : String
  checksum : String
  source : Option String
  builder : Option String
  data : List Nat
deriving DecidableEq, Repr

/-- The reshaping inside `getCodeDetails`:
`checksum: toHex(fromHex(data_hash))`, `source/builder: x || undefined`,
`data: fromBase64(data)`; a malformed field throws. -/
def mkCodeDetails (r : CodeInfoResponse) : Except String CodeDetails :=
  match fromHex r.data_hash with
  | none => Except.error "hex string contains invalid characters"
  | some hs =>
    match fromBase64 r.data with
    | none => Except.error "Invalid base64 string format"
    | some bytes =>
      Except.ok
        { id := r.id
          creator := r.creator
          checksum := toHex hs
          source := if jsStrFalsy r.source then none else r.source
          builder := if jsStrFalsy r.builder then none else r.builder
          data := bytes }

/-- The `codesCache` of one client instance (`Map<number, CodeDetails>`),
as an association list written only on cache misses. -/
abbrev CodeCache := List (Nat × CodeDetails)

/-- JS `Map.get`. -/
def cacheGet (cache : CodeCache) (codeId : Nat) : Option CodeDetails :=
  match cache.find? (fun e => e.1 == codeId) with
  | some e => some e.2
  | none => none

/-- JS `Map.set` (only ever called after a miss). -/
def cacheSet (cache : CodeCache) (codeId : Nat) (d : CodeDetails) : CodeCache :=
  (codeId, d) :: cache

/-- Operation `getCodeDetails`: answer from the cache when possible, otherwise fetch,
reshape, store, and return.  The backend maps a code id to its LCD response
(or a backend error); the final component counts network requests. -/
def getCodeDetails (backend : Nat → Except String CodeInfoResponse)
    (cache : CodeCache) (codeId : Nat) :
    Except String CodeDetails × CodeCache × Nat :=
  match cacheGet cache codeId with
  | some cached => (Except.ok cached, cache, 0)
  | none =>
    match backend codeId with
    | Except.error e => (Except.error e, cache, 1)
    | Except.ok r =>
      match mkCodeDetails r with
      | Except.error e => (Except.error e, cache, 1)
      | Except.ok d => (Except.ok d, cacheSet cache codeId d, 1)

/-- A sequence of further `getCodeDetails` calls (arbitrary code ids),
returning the final cache. -/
def runCodeCalls (backend : Nat → Except String CodeInfoResponse)
    (cache : CodeCache) : List Nat → CodeCache
  | [] => cache
  | codeId :: rest => runCodeCalls backend (getCodeDetails backend cache codeId).2.1 rest

/-- A `WasmData` entry: hex key, base64 value. -/
structure WasmData where
  key : String
  val : String
deriving DecidableEq, Repr

/-- The unwrapped result union of the raw-query LCD response:
`WasmData[] | null | string` (CosmWasm 0.10 array shape versus 0.11
string-or-null shape). -/
inductive RawQueryData where
  | arr (xs : List WasmData)
  | nullData
  | strData (s : String)
deriving DecidableEq, Repr

/-- A `WasmResponse`: either a success carrying a result or a backend error. -/
inductive WasmResponse (α : Type) where
  | success (height : String) (result : α)
  | failure (e : String)
deriving DecidableEq, Repr

/-- Helper `unwrapWasmResponse`: throw the backend's error, else yield the result. -/
def unwrapWasmResponse {α : Type} : WasmResponse α → Except String α
  | WasmResponse.success _ r => Except.ok r
  | WasmResponse.failure e => Except.error e

/-- Extension operation `wasm.queryContractRaw` of `lcdapi/wasm.ts` applied to the backend's
response: in the 0.10 array shape an empty array is `null` and otherwise the
first entry's value is base64-decoded; in the 0.11 shape a null or falsy
(empty) string is `null` and otherwise the string is base64-decoded. -/
def wasmQueryContractRaw (response : WasmResponse RawQueryData) :
    Except String (Option (List Nat)) :=
  match unwrapWasmResponse response with
  | Except.error e => Except.error e
  | Except.ok data =>
    match data with
    | RawQueryData.arr xs =>
      match xs with
      | [] => Except.ok none
      | x :: _ =>
        match fromBase64 x.val with
        | some bs => Except.ok (some bs)
        | none => Except.error "Invalid base64 string format"
    | RawQueryData.nullData => Except.ok none
    | RawQueryData.strData s =>
      if s = "" then Except.ok none
      else
        match fromBase64 s with
        | some bs => Except.ok (some bs)
        | none => Except.error "Invalid base64 string format"

/-- A contract-info record (only its presence matters here). -/
structure ContractInfo where
  address : String
  code_id : Nat
  creator : String
  admin : Option String
  label : String
deriving DecidableEq, Repr

/-- The client-level `queryContractRaw`: first check contract existence via
`getContract` (which throws a descriptive not-found error), then delegate to
the wasm extension's raw query. -/
def queryContractRaw (address : String) (contractInfo : Option ContractInfo)
    (response : WasmResponse RawQueryData) : Except String (Option (List Nat)) :=
  match contractInfo with
  | none => Except.error ("No contract found at address \x22" ++ address ++ "\x22")
  | some _ => wasmQueryContractRaw response

/-- The hash sequence of a transaction list. -/
def txHashes (l : List IndexedTx) : List String := l.map (·.hash)

/-- Strictly below in height. -/
abbrev hlt (a b : IndexedTx) : Prop := a.height < b.height

/-- At most in height. -/
abbrev hle (a b : IndexedTx) : Prop := a.height ≤ b.height

/-- The two lists agree on heights of shared hashes: a sent entry and a
received entry with the same hash are the same chain transaction, hence have
the same height. -/
def crossConsistent (A B : List IndexedTx) : Prop :=
  ∀ a ∈ A, ∀ b ∈ B, a.hash = b.hash → a.height = b.height

instance (A B : List IndexedTx) : Decidable (crossConsistent A B) := by
  unfold crossConsistent; infer_instance

/-- The set of hashes occurring in both lists. -/
def sharedHashes (A B : List IndexedTx) : Finset String :=
  (txHashes A).toFinset ∩ (txHashes B).toFinset

/-- A transaction with the given height and hash (remaining fields default). -/
def mkTx (h : Int) (hs : String) : IndexedTx := ⟨h, hs, 0, "", ""⟩

/-- Sent list of a strictly sorted, duplicate-free pair on which the merge
double-counts: the shared hashes occur at different heights. -/
def c1CexSent : List IndexedTx := [mkTx 1 "A", mkTx 2 "B"]

/-- Received list of the C1 counterexample pair. -/
def c1CexReceived : List IndexedTx := [mkTx 3 "B", mkTx 4 "A"]

/-- Sent list of the end-to-end merge example. -/
def c1Sent : List IndexedTx := [mkTx 10 "A", mkTx 20 "B"]

/-- Received list of the end-to-end merge example. -/
def c1Received : List IndexedTx := [mkTx 15 "C", mkTx 20 "B"]

/-- Sent list of a sorted pair whose merge output is out of order: the shared
hash sits at height 1 on the sent side but height 5 on the received side. -/
def c2CexSent : List IndexedTx := [mkTx 1 "A", mkTx 2 "X"]

/-- Received list of the C2 counterexample pair. -/
def c2CexReceived : List IndexedTx := [mkTx 5 "A"]

/-- Sent list of the C2 witness pair. -/
def c2WSent : List IndexedTx := [mkTx 10 "A", mkTx 20 "B"]

/-- Received list of the C2 witness pair. -/
def c2WReceived : List IndexedTx := [mkTx 15 "C", mkTx 20 "B"]

/-- A backend answering every query with one empty page. -/
def c3CexBackend : String → TxsPage := fun _ => ⟨"1", "0", []⟩

/-- A backend answering every query with a single transaction at height 5. -/
def c4CexBackend : String → TxsPage := fun _ => ⟨"1", "1", [⟨5, "A", none, "", ""⟩]⟩

/-- A backend answering every query with transactions at heights 5 and 50. -/
def c4WBackend : String → TxsPage :=
  fun _ => ⟨"1", "2", [⟨5, "A", none, "", ""⟩, ⟨50, "B", none, "", ""⟩]⟩

/-- A backend reporting two pages (150 matches) for every query. -/
def c5WBackend : String → TxsPage := fun _ => ⟨"2", "150", []⟩

/-- A broadcast response with a well-formed hash, a populated code field,
and a height string that is not a decimal number. -/
def c6CexResponse : BroadcastResponse := ⟨"seven", "DEAD", some 0, none, none, none⟩

/-- A backend serving one fixed, well-formed code-details response. -/
def c9WBackend : Nat → Except String CodeInfoResponse :=
  fun _ => Except.ok ⟨1, "creator", "00AA", none, some "", ""⟩

/-- The reshaped code details the `c9WBackend` response yields: lowercased
checksum, falsy `builder` dropped, empty bytecode. -/
def c9Details : CodeDetails := ⟨1, "creator", "00aa", none, none, []⟩

/-- An existing contract used by the raw-query witness. -/
def c10Info : ContractInfo := ⟨"orai1contract", 1, "creator2", none, "label"⟩

theorem crossConsistent_tail_left {s : IndexedTx} {ss B : List IndexedTx}
    (h : crossConsistent (s :: ss) B) : crossConsistent ss B :=
  fun a ha b hb => h a (List.mem_cons_of_mem _ ha) b hb

theorem crossConsistent_tail_right {r : IndexedTx} {A rs : List IndexedTx}
    (h : crossConsistent A (r :: rs)) : crossConsistent A rs :=
  fun a ha b hb => h a ha b (List.mem_cons_of_mem _ hb)

theorem mem_mergeSentReceived {x : IndexedTx} :
    ∀ {A B : List IndexedTx}, x ∈ mergeSentReceived A B → x ∈ A ∨ x ∈ B := by
  intro A B
  induction A, B using mergeSentReceived.induct with
  | case1 received =>
    intro hx; simp only [mergeSentReceived] at hx; exact Or.inr hx
  | case2 s ss =>
    intro hx; simp only [mergeSentReceived] at hx; exact Or.inl hx
  | case3 s ss r rs heq ih =>
    intro hx
    simp only [mergeSentReceived, if_pos heq] at hx
    rcases List.mem_cons.mp hx with hx | hx
    · exact Or.inr (hx ▸ List.mem_cons_self r rs)
    · rcases ih hx with h | h
      · exact Or.inl (List.mem_cons_of_mem _ h)
      · exact Or.inr (List.mem_cons_of_mem _ h)
  | case4 s ss r rs hne hlehd ih =>
    intro hx
    simp only [mergeSentReceived, if_neg hne, if_pos hlehd] at hx
    rcases List.mem_cons.mp hx with hx | hx
    · exact Or.inl (hx ▸ List.mem_cons_self s ss)
    · rcases ih hx with h | h
      · exact Or.inl (List.mem_cons_of_mem _ h)
      · exact Or.inr h
  | case5 s ss r rs hne hgt ih =>
    intro hx
    simp only [mergeSentReceived, if_neg hne, if_neg hgt] at hx
    rcases List.mem_cons.mp hx with hx | hx
    · exact Or.inr (hx ▸ List.mem_cons_self r rs)
    · rcases ih hx with h | h
      · exact Or.inl h
      · exact Or.inr (List.mem_cons_of_mem _ h)

theorem txHashes_mem_mergeSentReceived {h : String} :
    ∀ {A B : List IndexedTx},
      h ∈ txHashes (mergeSentReceived A B) ↔ h ∈ txHashes A ∨ h ∈ txHashes B := by
  intro A B
  induction A, B using mergeSentReceived.induct with
  | case1 received =>
    simp [mergeSentReceived, txHashes]
  | case2 s ss =>
    simp [mergeSentReceived, txHashes]
  | case3 s ss r rs heq ih =>
    simp only [mergeSentReceived, if_pos heq, txHashes, List.map_cons, List.mem_cons] at *
    constructor
    · rintro (rfl | hx)
      · exact Or.inl (Or.inl heq.symm)
      · rcases ih.mp hx with hx | hx
        · exact Or.inl (Or.inr hx)
        · exact Or.inr (Or.inr hx)
    · rintro ((rfl | hx) | (rfl | hx))
      · exact Or.inl heq
      · exact Or.inr (ih.mpr (Or.inl hx))
      · exact Or.inl rfl
      · exact Or.inr (ih.mpr (Or.inr hx))
  | case4 s ss r rs hne hlehd ih =>
    simp only [mergeSentReceived, if_neg hne, if_pos hlehd, txHashes, List.map_cons,
      List.mem_cons] at *
    constructor
    · rintro (rfl | hx)
      · exact Or.inl (Or.inl rfl)
      · rcases ih.mp hx with hx | hx
        · exact Or.inl (Or.inr hx)
        · exact Or.inr hx
    · rintro ((rfl | hx) | hx)
      · exact Or.inl rfl
      · exact Or.inr (ih.mpr (Or.inl hx))
      · exact Or.inr (ih.mpr (Or.inr hx))
  | case5 s ss r rs hne hgt ih =>
    simp only [mergeSentReceived, if_neg hne, if_neg hgt, txHashes, List.map_cons,
      List.mem_cons] at *
    constructor
    · rintro (rfl | hx)
      · exact Or.inr (Or.inl rfl)
      · rcases ih.mp hx with hx | hx
        · exact Or.inl hx
        · exact Or.inr (Or.inr hx)
    · rintro (hx | (rfl | hx))
      · exact Or.inr (ih.mpr (Or.inl hx))
      · exact Or.inl rfl
      · exact Or.inr (ih.mpr (Or.inr hx))

theorem sorted_mergeSentReceived :
    ∀ {A B : List IndexedTx}, List.Pairwise hle A → List.Pairwise hle B →
      crossConsistent A B → List.Pairwise hle (mergeSentReceived A B) := by
  intro A B
  induction A, B using mergeSentReceived.induct with
  | case1 received =>
    intro _ hB _; simpa only [mergeSentReceived] using hB
  | case2 s ss =>
    intro hA _ _; simpa only [mergeSentReceived] using hA
  | case3 s ss r rs heq ih =>
    intro hA hB hc
    simp only [mergeSentReceived, if_pos heq]
    rcases List.pairwise_cons.mp hA with ⟨hsA, hA'⟩
    rcases List.pairwise_cons.mp hB with ⟨hrB, hB'⟩
    refine List.pairwise_cons.mpr ⟨?_, ih hA' hB' ?_⟩
    · intro y hy
      have hsr : s.height = r.height :=
        hc s (List.mem_cons_self s ss) r (List.mem_cons_self r rs) heq
      rcases mem_mergeSentReceived hy with h | h
      · exact le_of_eq_of_le hsr.symm (hsA y h)
      · exact hrB y h
    · exact crossConsistent_tail_right (crossConsistent_tail_left hc)
  | case4 s ss r rs hne hlehd ih =>
    intro hA hB hc
    simp only [mergeSentReceived, if_neg hne, if_pos hlehd]
    rcases List.pairwise_cons.mp hA with ⟨hsA, hA'⟩
    refine List.pairwise_cons.mpr ⟨?_, ih hA' hB (crossConsistent_tail_left hc)⟩
    intro y hy
    rcases mem_mergeSentReceived hy with h | h
    · exact hsA y h
    · rcases List.mem_cons.mp h with rfl | h
      · exact hlehd
      · exact le_trans hlehd ((List.pairwise_cons.mp hB).1 y h)
  | case5 s ss r rs hne hgt ih =>
    intro hA hB hc
    simp only [mergeSentReceived, if_neg hne, if_neg hgt]
    rcases List.pairwise_cons.mp hB with ⟨hrB, hB'⟩
    refine List.pairwise_cons.mpr ⟨?_, ih hA hB' (crossConsistent_tail_right hc)⟩
    intro y hy
    have hrs : r.height ≤ s.height := le_of_lt (lt_of_not_le hgt)
    rcases mem_mergeSentReceived hy with h | h
    · rcases List.mem_cons.mp h with rfl | h
      · exact hrs
      · exact le_trans hrs ((List.pairwise_cons.mp hA).1 y h)
    · exact hrB y h

theorem nodup_txHashes_mergeSentReceived :
    ∀ {A B : List IndexedTx}, List.Pairwise hlt A → List.Pairwise hlt B →
      crossConsistent A B → (txHashes A).Nodup → (txHashes B).Nodup →
      (txHashes (mergeSentReceived A B)).Nodup := by
  intro A B
  induction A, B using mergeSentReceived.induct with
  | case1 received =>
    intro _ _ _ _ nB; simpa only [mergeSentReceived] using nB
  | case2 s ss =>
    intro _ _ _ nA _; simpa only [mergeSentReceived] using nA
  | case3 s ss r rs heq ih =>
    intro hA hB hc nA nB
    simp only [mergeSentReceived, if_pos heq, txHashes, List.map_cons] at *
    refine List.nodup_cons.mpr ⟨?_, ih hA.tail hB.tail
      (crossConsistent_tail_right (crossConsistent_tail_left hc))
      (List.nodup_cons.mp nA).2 (List.nodup_cons.mp nB).2⟩
    intro hmem
    rcases (txHashes_mem_mergeSentReceived (h := r.hash)).mp hmem with h | h
    · exact (List.nodup_cons.mp nA).1 (heq ▸ h)
    · exact (List.nodup_cons.mp nB).1 h
  | case4 s ss r rs hne hlehd ih =>
    intro hA hB hc nA nB
    simp only [mergeSentReceived, if_neg hne, if_pos hlehd, txHashes, List.map_cons] at *
    refine List.nodup_cons.mpr ⟨?_, ih hA.tail hB (crossConsistent_tail_left hc)
      (List.nodup_cons.mp nA).2 nB⟩
    intro hmem
    rcases (txHashes_mem_mergeSentReceived (h := s.hash)).mp hmem with h | h
    · exact (List.nodup_cons.mp nA).1 h
    · rcases List.mem_cons.mp h with h | h
      · exact hne h
      · rcases List.mem_map.mp h with ⟨y, hy, hyh⟩
        have hys : y.height = s.height :=
          (hc s (List.mem_cons_self s ss) y (List.mem_cons_of_mem _ hy) hyh.symm).symm
        have hry : r.height < y.height := (List.pairwise_cons.mp hB).1 y hy
        have : r.height < s.height := hys ▸ hry
        exact absurd hlehd (not_le.mpr this)
  | case5 s ss r rs hne hgt ih =>
    intro hA hB hc nA nB
    simp only [mergeSentReceived, if_neg hne, if_neg hgt, txHashes, List.map_cons] at *
    refine List.nodup_cons.mpr ⟨?_, ih hA hB.tail (crossConsistent_tail_right hc)
      nA (List.nodup_cons.mp nB).2⟩
    intro hmem
    rcases (txHashes_mem_mergeSentReceived (h := r.hash)).mp hmem with h | h
    · rcases List.mem_cons.mp h with h | h
      · exact hne h.symm
      · rcases List.mem_map.mp h with ⟨y, hy, hyh⟩
        have hys : y.height = r.height :=
          hc y (List.mem_cons_of_mem _ hy) r (List.mem_cons_self r rs) hyh
        have hsy : s.height < y.height := (List.pairwise_cons.mp hA).1 y hy
        have : s.height < r.height := hys ▸ hsy
        exact absurd this (not_lt.mpr (le_of_lt (lt_of_not_le hgt)))
    · exact (List.nodup_cons.mp nB).1 h

/-- Claim C1 (amended): for input lists that are strictly ascending by height,
duplicate-free in hash within themselves, and whose cross-list shared hashes
occur at equal heights, the two-pointer merge of `searchTx`'s
sent-from-or-to path produces a height-ascending sequence of length
`|A| + |B| - |shared hashes|` in which every shared hash appears exactly
once. -/
theorem searchTx_merge_dedup (A B : List IndexedTx)
    (hA : List.Pairwise hlt A) (hB : List.Pairwise hlt B)
    (hc : crossConsistent A B)
    (nA : (txHashes A).Nodup) (nB : (txHashes B).Nodup) :
    List.Pairwise hle (mergeSentReceived A B) ∧
    (mergeSentReceived A B).length = A.length + B.length - (sharedHashes A B).card ∧
    ∀ h ∈ sharedHashes A B, (txHashes (mergeSentReceived A B)).count h = 1 := by
  have hleA : List.Pairwise hle A := hA.imp le_of_lt
  have hleB : List.Pairwise hle B := hB.imp le_of_lt
  have hnd := nodup_txHashes_mergeSentReceived hA hB hc nA nB
  have hfin : (txHashes (mergeSentReceived A B)).toFinset
      = (txHashes A).toFinset ∪ (txHashes B).toFinset := by
    ext x
    simp only [List.mem_toFinset, Finset.mem_union, txHashes_mem_mergeSentReceived]
  refine ⟨sorted_mergeSentReceived hleA hleB hc, ?_, ?_⟩
  · have h1 := List.toFinset_card_of_nodup hnd
    have h2 := List.toFinset_card_of_nodup nA
    have h3 := List.toFinset_card_of_nodup nB
    have h4 := Finset.card_union_add_card_inter (txHashes A).toFinset (txHashes B).toFinset
    have hlenM : (txHashes (mergeSentReceived A B)).length = (mergeSentReceived A B).length :=
      List.length_map _ _
    have hlenA : (txHashes A).length = A.length := List.length_map _ _
    have hlenB : (txHashes B).length = B.length := List.length_map _ _
    rw [hfin] at h1
    unfold sharedHashes
    omega
  · intro h hmem
    have hmemA : h ∈ txHashes A := by
      have h' : h ∈ (txHashes A).toFinset ∩ (txHashes B).toFinset := hmem
      exact List.mem_toFinset.mp (Finset.mem_inter.mp h').1
    exact List.count_eq_one_of_mem hnd (txHashes_mem_mergeSentReceived.mpr (Or.inl hmemA))

/-- Claim C1 counterexample: the claim as stated fails on lists that are
strictly height-ascending and duplicate-free within themselves, if a shared
hash occurs at different heights in the two lists — hash `A` is emitted
twice and the output has length 3 instead of `2 + 2 - 2 = 2`. -/
theorem searchTx_merge_dedup_cex :
    List.Pairwise hlt c1CexSent ∧ List.Pairwise hlt c1CexReceived ∧
    (txHashes c1CexSent).Nodup ∧ (txHashes c1CexReceived).Nodup ∧
    (sharedHashes c1CexSent c1CexReceived).card = 2 ∧
    c1CexSent.length + c1CexReceived.length - (sharedHashes c1CexSent c1CexReceived).card = 2 ∧
    (mergeSentReceived c1CexSent c1CexReceived).length = 3 ∧
    (txHashes (mergeSentReceived c1CexSent c1CexReceived)).count "A" = 2 := by
  have hm : mergeSentReceived c1CexSent c1CexReceived = [mkTx 1 "A", mkTx 3 "B", mkTx 4 "A"] := by
    simp [c1CexSent, c1CexReceived, mergeSentReceived, mkTx]
  refine ⟨by decide, by decide, by decide, by decide, by decide, by decide, ?_, ?_⟩
  · rw [hm]; decide
  · rw [hm]; decide

/-- Claim C1 witness: the amended theorem applied to the spec's end-to-end
example — sent `[A@10, B@20]`, received `[C@15, B@20]` — yielding a sorted
three-element result in which the shared hash `B` appears exactly once. -/
theorem searchTx_merge_dedup_witness :
    List.Pairwise hle (mergeSentReceived c1Sent c1Received) ∧
    (mergeSentReceived c1Sent c1Received).length
      = c1Sent.length + c1Received.length - (sharedHashes c1Sent c1Received).card ∧
    (txHashes (mergeSentReceived c1Sent c1Received)).count "B" = 1 := by
  have h := searchTx_merge_dedup c1Sent c1Received
    (by decide) (by decide) (by decide) (by decide) (by decide)
  exact ⟨h.1, h.2.1, h.2.2 "B" (by decide)⟩

/-- Claim C2 (amended): for individually height-sorted inputs whose cross-list
shared hashes occur at equal heights, the merged sequence is non-decreasing
by height; when the two heads have equal height but different hashes, the
sent-side entry (the first one the loop examines) is emitted first. -/
theorem searchTx_merge_ordering (A B : List IndexedTx)
    (hA : List.Pairwise hle A) (hB : List.Pairwise hle B) (hc : crossConsistent A B)
    (s r : IndexedTx) (ss rs : List IndexedTx)
    (hne : s.hash ≠ r.hash) (hsr : s.height = r.height) :
    List.Pairwise hle (mergeSentReceived A B) ∧
    mergeSentReceived (s :: ss) (r :: rs) = s :: mergeSentReceived ss (r :: rs) := by
  refine ⟨sorted_mergeSentReceived hA hB hc, ?_⟩
  simp only [mergeSentReceived, if_neg hne, if_pos (le_of_eq hsr)]

/-- Claim C2 counterexample: the claim as stated fails on individually sorted
inputs: with sent `[A@1, X@2]` and received `[A@5]` the merge emits heights
`[5, 2]`, which is not non-decreasing. -/
theorem searchTx_merge_ordering_cex :
    List.Pairwise hlt c2CexSent ∧ List.Pairwise hlt c2CexReceived ∧
    (mergeSentReceived c2CexSent c2CexReceived).map IndexedTx.height = [5, 2] ∧
    ¬ List.Pairwise hle (mergeSentReceived c2CexSent c2CexReceived) := by
  have hm : mergeSentReceived c2CexSent c2CexReceived = [mkTx 5 "A", mkTx 2 "X"] := by
    simp [c2CexSent, c2CexReceived, mergeSentReceived, mkTx]
  refine ⟨by decide, by decide, ?_, ?_⟩
  · rw [hm]; decide
  · rw [hm]; decide

/-- Claim C2 witness: the amended theorem applied to sent `[A@10, B@20]`,
received `[C@15, B@20]`, and with an equal-height, different-hash pair of
heads `B@20` (sent) and `C@20` (received), of which the sent head is emitted
first. -/
theorem searchTx_merge_ordering_witness :
    List.Pairwise hle (mergeSentReceived c2WSent c2WReceived) ∧
    mergeSentReceived [mkTx 20 "B"] [mkTx 20 "C"]
      = mkTx 20 "B" :: mergeSentReceived [] [mkTx 20 "C"] :=
  searchTx_merge_ordering c2WSent c2WReceived (by decide) (by decide) (by decide)
    (mkTx 20 "B") (mkTx 20 "C") [] [] (by decide) (by decide)

/-- Claim C3 (amended): whenever the effective bounds — where a bound that is
unspecified *or zero* falls back to its default (JS `||` semantics) —
satisfy `maxHeight < minHeight`, `searchTx` returns an empty result
immediately and issues no network request. -/
theorem searchTx_empty_range (backend : String → TxsPage) (query : SearchTxQuery)
    (filter : SearchTxFilter)
    (h : jsOrInt filter.maxHeight maxSafeInteger < jsOrInt filter.minHeight 0) :
    searchTx backend query filter = (Except.ok [], []) := by
  unfold searchTx
  simp only [if_pos h]

/-- Claim C3 counterexample: the claim as stated fails for the filter
`minHeight = 1, maxHeight = 0`: the specified `maxHeight` (0) is strictly
below `minHeight` (1), yet `searchTx` issues one network request, because
the code replaces the falsy bound 0 by the `MAX_SAFE_INTEGER` default. -/
theorem searchTx_empty_range_cex :
    ((0 : Int) < 1) ∧
    (searchTx c3CexBackend (SearchTxQuery.byTags [])
      { minHeight := some 1, maxHeight := some 0 }).2.length = 1 := by
  exact ⟨by decide, by rfl⟩

/-- Claim C3 witness: the amended theorem at the inverted range
`minHeight = 5, maxHeight = 2`. -/
theorem searchTx_empty_range_witness :
    searchTx c3CexBackend (SearchTxQuery.byTags [])
      { minHeight := some 5, maxHeight := some 2 } = (Except.ok [], []) :=
  searchTx_empty_range c3CexBackend (SearchTxQuery.byTags [])
    { minHeight := some 5, maxHeight := some 2 } (by decide)

/-- Claim C4 (amended): on every query path and for every filter, every
transaction in a successfully returned sequence has height within the
inclusive effective range, where the effective bounds follow JS `||`
semantics (a bound specified as zero falls back to its default): the final
filter pass is applied to whatever the backend returned. -/
theorem searchTx_height_bounds (backend : String → TxsPage) (query : SearchTxQuery)
    (filter : SearchTxFilter) (txs : List IndexedTx)
    (h : (searchTx backend query filter).1 = Except.ok txs) :
    ∀ tx ∈ txs, jsOrInt filter.minHeight 0 ≤ tx.height ∧
      tx.height ≤ jsOrInt filter.maxHeight maxSafeInteger := by
  intro tx htx
  unfold searchTx at h
  by_cases hcmp : jsOrInt filter.maxHeight maxSafeInteger < jsOrInt filter.minHeight 0
  · simp only [if_pos hcmp] at h
    cases h
    cases htx
  · simp only [if_neg hcmp] at h
    cases hfe : (searchTxFetch backend query (jsOrInt filter.minHeight 0)
        (jsOrInt filter.maxHeight maxSafeInteger)).1 with
    | ok fetchedTxs =>
      rw [hfe] at h
      simp only [Except.ok.injEq] at h
      subst h
      have hmem := List.mem_filter.mp htx
      have hcond := hmem.2
      simp only [Bool.and_eq_true, decide_eq_true_eq] at hcond
      exact hcond
    | error e =>
      rw [hfe] at h
      cases h

/-- Claim C4 counterexample: the claim as stated fails for the filter
`maxHeight = 0`: the code treats the specified bound 0 as unset, so a
backend transaction at height 5 is returned even though 5 exceeds
`filter.maxHeight = 0`. -/
theorem searchTx_height_bounds_cex :
    (searchTx c4CexBackend (SearchTxQuery.byTags [])
      { minHeight := none, maxHeight := some 0 }).1 = Except.ok [mkTx 5 "A"] ∧
    ¬ ((5 : Int) ≤ 0) := by
  exact ⟨by rfl, by decide⟩

/-- Claim C4 witness: the amended theorem at a backend answering with heights
5 and 50 under the filter `minHeight = 10`: the returned transaction `B@50`
lies within the effective range. -/
theorem searchTx_height_bounds_witness :
    jsOrInt (some 10) 0 ≤ (mkTx 50 "B").height ∧
      (mkTx 50 "B").height ≤ jsOrInt none maxSafeInteger :=
  searchTx_height_bounds c4WBackend (SearchTxQuery.byTags [])
    { minHeight := some 10, maxHeight := none } [mkTx 50 "B"] (by rfl)
    (mkTx 50 "B") (List.mem_singleton.mpr rfl)

/-- Claim C5: whenever the backend's response reports more than one page of
results, the paginated-fetch helper `txsQuery` (used by `searchTx` and
`getTx`) raises the unsupported-pagination error instead of returning the
truncated page. -/
theorem txsQuery_pagination_guard (backend : String → TxsPage) (query : String) (p : Int)
    (hp : parseIntJS (backend (query ++ "&limit=100")).page_total = some p)
    (h1 : 1 < p) :
    (txsQuery backend query).1 = Except.error
      ("Found more results on the backend than we can process currently. Results: "
        ++ (backend (query ++ "&limit=100")).total_count ++ ", supported: 100") := by
  have hgt : parseIntGt (backend (query ++ "&limit=100")).page_total 1 = true := by
    unfold parseIntGt
    rw [hp]
    simpa using h1
  unfold txsQuery
  simp only [hgt, if_true]

/-- Claim C5 witness: a backend reporting two pages (150 matches) makes the
helper fail with the pagination error. -/
theorem txsQuery_pagination_guard_witness :
    (txsQuery c5WBackend "tx.hash=X").1 = Except.error
      ("Found more results on the backend than we can process currently. Results: "
        ++ (c5WBackend ("tx.hash=X" ++ "&limit=100")).total_count ++ ", supported: 100") :=
  txsQuery_pagination_guard c5WBackend "tx.hash=X" 2 (by rfl) (by decide)

/-- Claim C6 (amended): `broadcastTx` rejects every response whose hash fails
the strict non-empty, even-length, uppercase-hex pattern; for a valid hash
it returns the synchronous-acceptance shape exactly when the backend
populated a numeric code field — provided the height string parses as a
uint53 — and otherwise the indexed shape, provided the optional data field
decodes as hex. -/
theorem broadcastTx_shapes (r : BroadcastResponse) :
    (txhashMatches r.txhash = false →
      broadcastTx r
        = Except.error "Received ill-formatted txhash. Must be non-empty upper-case hex") ∧
    (∀ c h, txhashMatches r.txhash = true → r.code = some c →
      parseUint53 r.height = some h →
      broadcastTx r = Except.ok (BroadcastResult.sync h r.txhash c (jsOrStr r.raw_log ""))) ∧
    (∀ dd, txhashMatches r.txhash = true → r.code = none →
      broadcastData r.data = Except.ok dd →
      broadcastTx r = Except.ok (BroadcastResult.indexed (r.logs.getD [])
        (jsOrStr r.raw_log "") r.txhash dd)) := by
  refine ⟨?_, ?_, ?_⟩
  · intro hm
    unfold broadcastTx
    simp [hm]
  · intro c h hm hc hh
    unfold broadcastTx
    simp [hm, hc, hh]
  · intro dd hm hc hd
    unfold broadcastTx
    simp [hm, hc, hd]

/-- Claim C6 counterexample: the claim as stated fails on a response with the
valid hash `DEAD` and a populated code field whose height string is not a
decimal number: `broadcastTx` raises the `Uint53` parse error instead of
returning the synchronous-acceptance shape. -/
theorem broadcastTx_shapes_cex :
    txhashMatches c6CexResponse.txhash = true ∧
    c6CexResponse.code = some 0 ∧
    broadcastTx c6CexResponse = Except.error "Invalid string format" := by
  exact ⟨by rfl, rfl, by rfl⟩

/-- Claim C6 witness: the lowercase hash `deadbeef` is rejected; hash `DEAD`
with code 5 yields the synchronous shape with parsed height 7; hash `DEAD`
without a code yields the indexed shape with hex-decoded data. -/
theorem broadcastTx_shapes_witness :
    broadcastTx ⟨"0", "deadbeef", none, none, none, none⟩
      = Except.error "Received ill-formatted txhash. Must be non-empty upper-case hex" ∧
    broadcastTx ⟨"7", "DEAD", some 5, some "ok", none, none⟩
      = Except.ok (BroadcastResult.sync 7 "DEAD" 5 "ok") ∧
    broadcastTx ⟨"0", "DEAD", none, none, some ["log0"], some "00ff"⟩
      = Except.ok (BroadcastResult.indexed ["log0"] "" "DEAD" (some [0, 255])) := by
  have h1 := (broadcastTx_shapes ⟨"0", "deadbeef", none, none, none, none⟩).1 (by rfl)
  have h2 := (broadcastTx_shapes ⟨"7", "DEAD", some 5, some "ok", none, none⟩).2.1
    5 7 (by rfl) rfl (by rfl)
  have h3 := (broadcastTx_shapes ⟨"0", "DEAD", none, none, some ["log0"], some "00ff"⟩).2.2
    (some [0, 255]) (by rfl) rfl (by rfl)
  exact ⟨h1, by simpa using h2, by simpa using h3⟩

/-- Claim C7: when the backend reports an empty address field, `getAccount`
returns the absent sentinel while `getSequence` fails with the
account-not-found message; for a present account, `getSequence` returns its
account number and sequence. -/
theorem getAccount_getSequence_contract (v : AccountValue) :
    (v.address = "" →
      getAccount v = none ∧
      getSequence v = Except.error
        "Account does not exist on chain. Send some tokens there before trying to query sequence.") ∧
    (v.address ≠ "" →
      getAccount v = some ⟨v.address, v.coins, v.public_key, v.account_number, v.sequence⟩ ∧
      getSequence v = Except.ok ⟨v.account_number, v.sequence⟩) := by
  constructor
  · intro h
    have hga : getAccount v = none := by
      unfold getAccount
      simp [h]
    refine ⟨hga, ?_⟩
    unfold getSequence
    rw [hga]
  · intro h
    have hga : getAccount v
        = some ⟨v.address, v.coins, v.public_key, v.account_number, v.sequence⟩ := by
      unfold getAccount
      simp [h]
    refine ⟨hga, ?_⟩
    unfold getSequence
    rw [hga]

/-- Claim C7 witness: a backend value with an empty address yields the
sentinel and the not-found error; one with a present address yields its
numbers. -/
theorem getAccount_getSequence_contract_witness :
    getAccount ⟨"", [], none, 4, 9⟩ = none ∧
    getSequence ⟨"", [], none, 4, 9⟩ = Except.error
      "Account does not exist on chain. Send some tokens there before trying to query sequence." ∧
    getSequence ⟨"orai1addr", [⟨"orai", "12"⟩], none, 4, 9⟩ = Except.ok ⟨4, 9⟩ := by
  have h1 := (getAccount_getSequence_contract ⟨"", [], none, 4, 9⟩).1 rfl
  have h2 := (getAccount_getSequence_contract ⟨"orai1addr", [⟨"orai", "12"⟩], none, 4, 9⟩).2
    (by decide)
  exact ⟨h1.1, h1.2, h2.2⟩

theorem runGetChainIdCalls_cached (network : Option String) (c : String) (hc : c ≠ "") :
    ∀ n, runGetChainIdCalls network n (some c) = (List.replicate n (Except.ok c), some c, 0) := by
  intro n
  induction n with
  | zero => rfl
  | succ m ih =>
    have hstep : getChainId network (some c) = (Except.ok c, some c, 0) := by
      unfold getChainId jsStrFalsy
      simp [hc]
    simp only [runGetChainIdCalls, hstep, ih, List.replicate_succ]

/-- Claim C8: `getChainId` is a memoization contract: with an empty or missing
network field the (first) call fails with the protocol error; with a
non-empty network name, a run of `n ≥ 1` calls on a fresh instance returns
the same chain id every time and issues exactly one network request in
total. -/
theorem getChainId_memoization (net : String) (hnet : net ≠ "") (n : Nat) (hn : 1 ≤ n) :
    (runGetChainIdCalls (some net) n none).1 = List.replicate n (Except.ok net) ∧
    (runGetChainIdCalls (some net) n none).2.2 = 1 ∧
    (runGetChainIdCalls none 1 none).1 = [Except.error "Chain ID must not be empty"] ∧
    (runGetChainIdCalls (some "") 1 none).1 = [Except.error "Chain ID must not be empty"] := by
  obtain ⟨m, rfl⟩ : ∃ m, n = m + 1 := ⟨n - 1, by omega⟩
  have hstep : getChainId (some net) none = (Except.ok net, some net, 1) := by
    unfold getChainId jsStrFalsy
    simp [hnet]
  have hrun : runGetChainIdCalls (some net) (m + 1) none
      = (Except.ok net :: List.replicate m (Except.ok net), some net, 1) := by
    simp only [runGetChainIdCalls, hstep, runGetChainIdCalls_cached (some net) net hnet m]
  refine ⟨?_, ?_, by rfl, by rfl⟩
  · rw [hrun, List.replicate_succ]
  · rw [hrun]

/-- Claim C8 witness: three calls against the network name `oraichain` all
return it, with one request in total; the empty and missing network fields
produce the protocol error. -/
theorem getChainId_memoization_witness :
    (runGetChainIdCalls (some "oraichain") 3 none).1
      = List.replicate 3 (Except.ok "oraichain") ∧
    (runGetChainIdCalls (some "oraichain") 3 none).2.2 = 1 ∧
    (runGetChainIdCalls none 1 none).1 = [Except.error "Chain ID must not be empty"] ∧
    (runGetChainIdCalls (some "") 1 none).1 = [Except.error "Chain ID must not be empty"] :=
  getChainId_memoization "oraichain" (by decide) 3 (by decide)

theorem cacheGet_getCodeDetails_success (backend : Nat → Except String CodeInfoResponse)
    (cache : CodeCache) (codeId : Nat) (d : CodeDetails) (st : CodeCache) (k : Nat)
    (h : getCodeDetails backend cache codeId = (Except.ok d, st, k)) :
    cacheGet st codeId = some d := by
  unfold getCodeDetails at h
  split at h
  next cached hg =>
    simp only [Prod.mk.injEq, Except.ok.injEq] at h
    obtain ⟨h1, h2, -⟩ := h
    rw [← h2, hg, h1]
  next hg =>
    split at h
    next e hb => simp at h
    next r hb =>
      split at h
      next e hmk => simp at h
      next d0 hmk =>
        simp only [Prod.mk.injEq, Except.ok.injEq] at h
        obtain ⟨h1, h2, -⟩ := h
        rw [← h2, ← h1]
        simp [cacheGet, cacheSet]

theorem cacheGet_getCodeDetails_preserved (backend : Nat → Except String CodeInfoResponse)
    (cache : CodeCache) (j i : Nat) (d : CodeDetails)
    (h : cacheGet cache i = some d) :
    cacheGet (getCodeDetails backend cache j).2.1 i = some d := by
  unfold getCodeDetails
  split
  next cached hg => exact h
  next hg =>
    split
    next e hb => exact h
    next r hb =>
      split
      next e hmk => exact h
      next d0 hmk =>
        have hij : (j == i) = false := by
          by_cases hji : j = i
          · subst hji
            rw [hg] at h
            cases h
          · simpa using hji
        simpa [cacheGet, cacheSet, List.find?, hij] using h

theorem cacheGet_runCodeCalls (backend : Nat → Except String CodeInfoResponse)
    (i : Nat) (d : CodeDetails) :
    ∀ (ids : List Nat) (cache : CodeCache), cacheGet cache i = some d →
      cacheGet (runCodeCalls backend cache ids) i = some d := by
  intro ids
  induction ids with
  | nil => intro cache h; exact h
  | cons j rest ih =>
    intro cache h
    exact ih _ (cacheGet_getCodeDetails_preserved backend cache j i d h)

/-- Claim C9: `getCodeDetails` is cache-backed and never invalidates: after a
successful call for a code id, every later call for that id — with
arbitrarily many intervening calls for other ids — returns the identical
result and issues no network request. -/
theorem getCodeDetails_cache (backend : Nat → Except String CodeInfoResponse)
    (cache : CodeCache) (codeId : Nat) (d : CodeDetails) (st : CodeCache) (k : Nat)
    (h : getCodeDetails backend cache codeId = (Except.ok d, st, k)) (ids : List Nat) :
    getCodeDetails backend (runCodeCalls backend st ids) codeId
      = (Except.ok d, runCodeCalls backend st ids, 0) := by
  have h1 := cacheGet_getCodeDetails_success backend cache codeId d st k h
  have h2 := cacheGet_runCodeCalls backend codeId d ids st h1
  unfold getCodeDetails
  rw [h2]

/-- Claim C9 witness: after the first fetch of code id 1 (one request), a
later call for id 1 — after an intervening call for id 7 — answers from the
cache with the identical details and zero requests. -/
theorem getCodeDetails_cache_witness :
    getCodeDetails c9WBackend (runCodeCalls c9WBackend [(1, c9Details)] [7]) 1
      = (Except.ok c9Details, runCodeCalls c9WBackend [(1, c9Details)] [7], 0) :=
  getCodeDetails_cache c9WBackend [] 1 c9Details [(1, c9Details)] 1 (by rfl) [7]

/-- Claim C10: for an existing contract, `queryContractRaw` returns the absent
sentinel exactly for an empty 0.10 result array, for a 0.11 null, and for a
0.11 empty string — so an empty stored value and an absent key are
indistinguishable — while a non-empty array or string never yields the
sentinel. -/
theorem queryContractRaw_sentinel (address : String) (info : ContractInfo)
    (height : String) :
    queryContractRaw address (some info)
      (WasmResponse.success height (RawQueryData.arr [])) = Except.ok none ∧
    queryContractRaw address (some info)
      (WasmResponse.success height RawQueryData.nullData) = Except.ok none ∧
    queryContractRaw address (some info)
      (WasmResponse.success height (RawQueryData.strData "")) = Except.ok none ∧
    (∀ x xs, queryContractRaw address (some info)
      (WasmResponse.success height (RawQueryData.arr (x :: xs))) ≠ Except.ok none) ∧
    (∀ s, s ≠ "" → queryContractRaw address (some info)
      (WasmResponse.success height (RawQueryData.strData s)) ≠ Except.ok none) := by
  refine ⟨rfl, rfl, rfl, ?_, ?_⟩
  · intro x xs
    unfold queryContractRaw wasmQueryContractRaw unwrapWasmResponse
    cases hb : fromBase64 x.val with
    | some bs => simp [hb]
    | none => simp [hb]
  · intro s hs
    unfold queryContractRaw wasmQueryContractRaw unwrapWasmResponse
    cases hb : fromBase64 s with
    | some bs => simp [hs, hb]
    | none => simp [hs, hb]

/-- Claim C10 witness: the concrete existing contract with an empty 0.10
array yields the sentinel, and with a non-empty 0.11 value does not. -/
theorem queryContractRaw_sentinel_witness :
    queryContractRaw "orai1contract" (some c10Info)
      (WasmResponse.success "100" (RawQueryData.arr [])) = Except.ok none ∧
    queryContractRaw "orai1contract" (some c10Info)
      (WasmResponse.success "100" (RawQueryData.strData "QQ==")) ≠ Except.ok none := by
  have h := queryContractRaw_sentinel "orai1contract" c10Info "100"
  exact ⟨h.1, h.2.2.2.2 "QQ==" (by decide)⟩

end CosmWasmClient
